import Mathlib

/-!
Shallow embedding of the job-lifecycle core of the AI document generator
backend (src/server.py; src/server_redis.py implements the same logic over
a Redis-backed store).  Python dict records become a `JobStatus` structure;
wall-clock readings (`time.time()`), the freshly generated random job id and
request payloads are passed as explicit parameters.  The floating-point
progress interpolation is modelled over ℚ with `Int.floor`: Python `int()`
truncates toward zero, which agrees with `Int.floor` on the non-negative
values arising here (noted where relevant).
-/

namespace DocGen

/-- A job status record: the dict stored in `job_statuses[job_id]` in
src/server.py.  Keys that are absent until a later write (`docHtml`,
`pdfUrl`) are `Option`s; `startTime` is an `Option` so the Retention
handling by the Sweeper of a record missing that key can be stated. -/
structure JobStatus where
  jobId : String
  stage : String
  progress : ℕ
  message : String
  startTime : Option ℕ
  estimatedTimeRemaining : ℤ
  currentStep : String
  totalSteps : ℕ
  completedSteps : ℕ
  details : List String
  docHtml : Option String
  pdfUrl : Option String
deriving Repr, DecidableEq

/-- The initial record written by `generate_document` (src/server.py lines
114-125), with `t` the creation wall-clock time in epoch ms. -/
def initialGenStatus (jobId : String) (t : ℕ) : JobStatus :=
  { jobId := jobId
    stage := "initializing"
    progress := 0
    message := "Starting document generation..."
    startTime := some t
    estimatedTimeRemaining := 1800
    currentStep := "Initializing"
    totalSteps := 5
    completedSteps := 0
    details := ["Job created", "Validating prompt"]
    docHtml := none
    pdfUrl := none }

/-- The record written by `refine_document` (src/server.py lines 162-173);
this write happens unconditionally, also when a record for the same id
already exists. -/
def initialRefineStatus (jobId : String) (t : ℕ) : JobStatus :=
  { jobId := jobId
    stage := "analyzing"
    progress := 5
    message := "Analyzing content for refinement..."
    startTime := some t
    estimatedTimeRemaining := 900
    currentStep := "Analyzing"
    totalSteps := 4
    completedSteps := 0
    details := ["Refinement started", "Analyzing existing content"]
    docHtml := none
    pdfUrl := none }

/-- One generation stage descriptor (src/server.py lines 351-384). -/
structure StageInfo where
  stage : String
  progress : ℕ
  duration : ℕ
  message : String
  step : String
  details : List String
deriving Repr, DecidableEq

def gsAnalyzing : StageInfo :=
  ⟨"analyzing", 10, 300, "Analyzing prompt and gathering context...",
   "Analyzing input",
   ["Parsing prompt structure", "Identifying key topics",
    "Determining document structure"]⟩

def gsGenerating : StageInfo :=
  ⟨"generating", 40, 900, "Generating document content...",
   "Content generation",
   ["Creating outline", "Generating introduction", "Writing main sections",
    "Adding supporting details"]⟩

def gsFormatting : StageInfo :=
  ⟨"formatting", 75, 480, "Formatting and styling document...",
   "Formatting",
   ["Applying styles", "Formatting headings", "Adding spacing and layout"]⟩

def gsFinalizing : StageInfo :=
  ⟨"finalizing", 90, 120, "Finalizing document and generating PDF...",
   "Finalizing",
   ["Quality checks", "Generating PDF", "Creating preview"]⟩

/-- The `stages` plan of `process_document_generation`. -/
def genStages : List StageInfo :=
  [gsAnalyzing, gsGenerating, gsFormatting, gsFinalizing]

def genStageInfo (i : Fin 4) : StageInfo :=
  match i with
  | ⟨0, _⟩ => gsAnalyzing
  | ⟨1, _⟩ => gsGenerating
  | ⟨2, _⟩ => gsFormatting
  | ⟨3, _⟩ => gsFinalizing

/-- Embeds `stages[i + 1]["progress"] if i + 1 < len(stages) else 100`
(src/server.py line 431). -/
def nextStageProgress (i : Fin 4) : ℕ :=
  if h : i.val + 1 < 4 then (genStageInfo ⟨i.val + 1, h⟩).progress else 100

/-- Demo mode sets `speed_multiplier = 60` (src/server.py lines 390-391). -/
def speedMultiplier : ℚ := 60

/-- Embeds `update_interval = 2000 / speed_multiplier` in ms (line 421). -/
def updateIntervalMs : ℚ := 2000 / speedMultiplier

/-- Embeds `updates = int((stage_info["duration"] * 1000 / speed_multiplier) /
update_interval)` (line 422), modelled in exact rational arithmetic (the
multiplier cancels, giving `duration / 2`). -/
def genUpdates (i : Fin 4) : ℕ :=
  Int.toNat ⌊((genStageInfo i).duration * 1000 / speedMultiplier) / updateIntervalMs⌋

/-- Embeds `total_duration = sum(s["duration"] * 1000 / speed_multiplier ...)`
(line 402), in ms. -/
def totalDurationMs : ℚ :=
  (genStages.map (fun s => (s.duration : ℚ) * 1000 / speedMultiplier)).sum

/-- Embeds `progress_increment = (stage_progress_range / updates) * (j + 1)`
(lines 432-433). -/
def tickShare (i : Fin 4) (j : ℕ) : ℚ :=
  (((nextStageProgress i : ℚ) - ((genStageInfo i).progress : ℚ)) / (genUpdates i))
    * ((j : ℚ) + 1)

/-- The progress value written on tick `j` of stage `i`:
`min(next_stage_progress - 1, int(stage_info["progress"] + progress_increment))`
(lines 438-441).  The `int()` argument is non-negative, so truncation
toward zero coincides with `Int.floor`. -/
def tickProgress (i : Fin 4) (j : ℕ) : ℕ :=
  min (nextStageProgress i - 1)
      (Int.toNat ⌊((genStageInfo i).progress : ℚ) + tickShare i j⌋)

/-- Embeds `remaining_time = max(0, int((total_duration - elapsed_time) / 1000))`
(lines 403, 436): on negative operands Python `int()` truncates toward zero
where `Int.floor` rounds down, but `max 0` erases the difference. -/
def remainingSeconds (elapsedMs : ℚ) : ℤ :=
  max 0 ⌊(totalDurationMs - elapsedMs) / 1000⌋

/-- The stage-entry write of `process_document_generation` (lines 405-416):
stage `i` is written with loop-local `completed_steps = i + 1`. -/
def genStageWrite (i : Fin 4) (elapsedMs : ℚ) (s : JobStatus) : JobStatus :=
  let info := genStageInfo i
  { s with
    stage := info.stage
    progress := info.progress
    message := info.message
    currentStep := info.step
    completedSteps := i.val + 1
    estimatedTimeRemaining := remainingSeconds elapsedMs
    details := s.details ++ info.details }

/-- The per-tick write (lines 438-443). -/
def genTickWrite (i : Fin 4) (j : ℕ) (elapsedMs : ℚ) (s : JobStatus) : JobStatus :=
  { s with
    progress := tickProgress i j
    estimatedTimeRemaining := remainingSeconds elapsedMs }

/-- `generate_mock_document` (src/server.py lines 505-523). -/
def generate_mock_document (prompt : String) : String :=
  "\n    <h1>Generated Document</h1>\n    <p><strong>Based on prompt:</strong> "
    ++ prompt
    ++ "</p>\n    <h2>Introduction</h2>\n    <p>This is a sample document generated based on your prompt. In a real implementation, this would be generated by your LLM.</p>\n    <h2>Main Content</h2>\n    <p>Lorem ipsum dolor sit amet, consectetur adipiscing elit. Sed do eiusmod tempor incididunt ut labore et dolore magna aliqua.</p>\n    <ul>\n      <li>First key point</li>\n      <li>Second key point</li>\n      <li>Third key point</li>\n    </ul>\n    <h2>Conclusion</h2>\n    <p>This concludes the generated document. You can edit this content using the TipTap editor.</p>\n  "

/-- The terminal write of `process_document_generation` (lines 449-461). -/
def genTerminalWrite (jobId prompt : String) (s : JobStatus) : JobStatus :=
  { s with
    stage := "completed"
    progress := 100
    message := "Document generation completed successfully!"
    completedSteps := 5
    estimatedTimeRemaining := 0
    details := s.details ++ ["Generation complete"]
    docHtml := some (generate_mock_document prompt)
    pdfUrl := some ("/api/pdf/" ++ jobId) }

/-- One refinement stage descriptor (src/server.py lines 469-473). -/
structure RefStageInfo where
  stage : String
  progress : ℕ
  duration : ℕ
  message : String
deriving Repr, DecidableEq

def refStages : List RefStageInfo :=
  [⟨"analyzing", 20, 3, "Analyzing content..."⟩,
   ⟨"generating", 60, 7, "Refining content..."⟩,
   ⟨"finalizing", 95, 2, "Finalizing changes..."⟩]

def refStageInfo (k : Fin 3) : RefStageInfo :=
  match k with
  | ⟨0, _⟩ => ⟨"analyzing", 20, 3, "Analyzing content..."⟩
  | ⟨1, _⟩ => ⟨"generating", 60, 7, "Refining content..."⟩
  | ⟨2, _⟩ => ⟨"finalizing", 95, 2, "Finalizing changes..."⟩

/-- Embeds `max(0, 12 - int(time.time() - start_time))` (line 486); the elapsed
time is non-negative so `int()` truncation coincides with `Int.floor`. -/
def refRemaining (elapsedS : ℚ) : ℤ :=
  max 0 (12 - ⌊elapsedS⌋)

/-- The per-stage write of `process_refinement` (lines 482-488): it does
not touch `details`, `currentStep` or `completedSteps`. -/
def refStageWrite (k : Fin 3) (elapsedS : ℚ) (s : JobStatus) : JobStatus :=
  let info := refStageInfo k
  { s with
    stage := info.stage
    progress := info.progress
    message := info.message
    estimatedTimeRemaining := refRemaining elapsedS }

/-- The terminal write of `process_refinement` (lines 492-502): it does not
touch `completedSteps` and appends nothing to `details`. -/
def refTerminalWrite (fullDocHtml : Option String) (s : JobStatus) : JobStatus :=
  { s with
    stage := "completed"
    progress := 100
    message := "Refinement completed!"
    estimatedTimeRemaining := 0
    docHtml := some (match fullDocHtml with
      | some h => h ++ "<p>Refined content added.</p>"
      | none => "<p>Refined content</p>") }

/-- Embeds `status.get("stage") in ["completed", "failed"]` — the terminal test
used by `cancel_job` (line 328) and the SSE stream. -/
def isTerminal (s : JobStatus) : Bool :=
  s.stage == "completed" || s.stage == "failed"

/-- Pre-write check of the Stage Runner (lines 397, 428, 449, 479, 493):
`if not status or status.get("stage") == "failed"`.  Note it tests only
for absence or `failed`, never for `completed`. -/
def runnerShouldStop (o : Option JobStatus) : Bool :=
  match o with
  | none => true
  | some s => s.stage == "failed"

/-- The mutation performed by `cancel_job` on a non-terminal record
(lines 332-334): only `stage`, `message` and `estimatedTimeRemaining`
change. -/
def cancelWrite (s : JobStatus) : JobStatus :=
  { s with
    stage := "failed"
    message := "Job cancelled by user"
    estimatedTimeRemaining := 0 }

inductive CancelOutcome where
  | notFound
  | alreadyDone
  | cancelled
deriving Repr, DecidableEq

/-- The `/api/cancel/:jobId` handler `cancel_job` (src/server.py lines
317-337) acting on the record stored under the given id. -/
def cancel_job (o : Option JobStatus) : CancelOutcome × Option JobStatus :=
  match o with
  | none => (CancelOutcome.notFound, none)
  | some s =>
      if isTerminal s then (CancelOutcome.alreadyDone, some s)
      else (CancelOutcome.cancelled, some (cancelWrite s))

/-- Operations that write to the record of a single job.  Wall-clock
readings are carried as parameters; the payload of a terminal write is the
prompt / document content it embeds. -/
inductive Op where
  | genStage (i : Fin 4) (elapsedMs : ℚ)
  | genTick (i : Fin 4) (j : ℕ) (elapsedMs : ℚ)
  | genTerminal (jobId prompt : String)
  | refStage (k : Fin 3) (elapsedS : ℚ)
  | refTerminal (fullDocHtml : Option String)
  | cancelOp
  | refineInitOp (jobId : String) (t : ℕ)

/-- Application of one operation to the stored record for a job id.  Each
Stage Runner write is preceded by the read and `runnerShouldStop` check
the source performs (read-modify-write of the same record); `cancelOp` is the
Cancellation Gate; `refineInitOp` is the unconditional re-initialization
performed by the `/api/refine` handler for an existing id. -/
def applyOp : Op → Option JobStatus → Option JobStatus
  | Op.genStage i e, o =>
      if runnerShouldStop o then o else o.map (genStageWrite i e)
  | Op.genTick i j e, o =>
      if runnerShouldStop o then o else o.map (genTickWrite i j e)
  | Op.genTerminal jid p, o =>
      if runnerShouldStop o then o else o.map (genTerminalWrite jid p)
  | Op.refStage k e, o =>
      if runnerShouldStop o then o else o.map (refStageWrite k e)
  | Op.refTerminal d, o =>
      if runnerShouldStop o then o else o.map (refTerminalWrite d)
  | Op.cancelOp, o => (cancel_job o).2
  | Op.refineInitOp jid t, _ => some (initialRefineStatus jid t)

/-- Program counter of one `process_document_generation` run: about to
perform the stage-`i` entry write, tick `j` of stage `i`, the terminal
write, or finished. -/
inductive PC where
  | stageEntry (i : Fin 4)
  | tick (i : Fin 4) (j : ℕ)
  | terminal
  | done
deriving DecidableEq, Repr

/-- Control flow after the last tick of stage `i`: next stage if one
remains, else the terminal write. -/
def afterStage (i : Fin 4) : PC :=
  if h : i.val + 1 < 4 then PC.stageEntry ⟨i.val + 1, h⟩ else PC.terminal

/-- Program order of the runner: stage-entry write, then
`for j in range(updates)` ticks, then the next stage, ending with the
terminal write.  (When the pre-write check of the runner fires the source
`break`s out of the loops; since the check condition — record absent or
`failed` — can never become false again during a run, skipping ahead and
stepping through the remaining writes as guarded no-ops yield the same
sequence of store states.) -/
def nextPC : PC → PC
  | PC.stageEntry i => if 0 < genUpdates i then PC.tick i 0 else afterStage i
  | PC.tick i j => if j + 1 < genUpdates i then PC.tick i (j + 1) else afterStage i
  | PC.terminal => PC.done
  | PC.done => PC.done

/-- The write the runner performs at a program point (`none` once done).
The elapsed wall-clock time `e` at the write is arbitrary. -/
def pcOp (jobId prompt : String) (e : ℚ) : PC → Option Op
  | PC.stageEntry i => some (Op.genStage i e)
  | PC.tick i j => some (Op.genTick i j e)
  | PC.terminal => some (Op.genTerminal jobId prompt)
  | PC.done => none

/-- One step in the lifetime of a generation job: either the Stage Runner
performs its next guarded write (at an arbitrary wall-clock time), or the
Cancellation Gate fires `cancel_job` at an arbitrary point. -/
inductive GenStep (jobId prompt : String) :
    Option JobStatus × PC → Option JobStatus × PC → Prop where
  | runner (e : ℚ) (o : Option JobStatus) (pc : PC) (op : Op)
      (h : pcOp jobId prompt e pc = some op) :
      GenStep jobId prompt (o, pc) (applyOp op o, nextPC pc)
  | cancel (o : Option JobStatus) (pc : PC) :
      GenStep jobId prompt (o, pc) (applyOp Op.cancelOp o, pc)

/-- Any number of `GenStep`s. -/
abbrev GenReach (jobId prompt : String) :
    Option JobStatus × PC → Option JobStatus × PC → Prop :=
  Relation.ReflTransGen (GenStep jobId prompt)

/-- The progress value the runner will write at a program point (100 once
at or past the terminal write). -/
def pcBound : PC → ℕ
  | PC.stageEntry i => (genStageInfo i).progress
  | PC.tick i j => tickProgress i j
  | PC.terminal => 100
  | PC.done => 100

/-- Inductive invariant of a generation run: the record exists, keeps
`totalSteps = 5`, progress stays within 0-100 and below the value of the
next write unless cancelled, and `completed` appears only after the final
write of the runner. -/
def GenInv (st : Option JobStatus × PC) : Prop :=
  ∃ s, st.1 = some s ∧ s.totalSteps = 5 ∧ s.progress ≤ 100 ∧
    (s.stage ≠ "failed" → s.progress ≤ pcBound st.2) ∧
    (s.stage = "completed" → st.2 = PC.done)

/-- The `job_statuses` dict, as an association list keyed by job id
(Python dict assignment replaces in place, else appends). -/
abbrev Store := List (String × JobStatus)

def Store.get : Store → String → Option JobStatus
  | [], _ => none
  | p :: rest, k => if p.1 = k then some p.2 else Store.get rest k

def Store.put : Store → String → JobStatus → Store
  | [], k, v => [(k, v)]
  | p :: rest, k, v => if p.1 = k then (k, v) :: rest else p :: Store.put rest k v

/-- The JSON body returned by the create endpoints. -/
structure ApiResponse where
  jobId : String
  message : String
  docHtml : String
  statusUrl : String
deriving Repr, DecidableEq

/-- Observable effect of a create endpoint: HTTP 400 flag, response body,
resulting store, and whether a background runner thread was started. -/
structure EndpointResult where
  httpError : Bool
  response : Option ApiResponse
  store : Store
  startedRunner : Bool
deriving Repr, DecidableEq

/-- The `/api/generate` handler `generate_document` (src/server.py lines
95-144).  `prompt` is the `prompt` field of the request (`none` when absent);
the Python test `if not prompt` rejects both an absent and an empty prompt.
`freshId` is the id built from the timestamp and random suffix, `t` the
creation wall-clock epoch ms. -/
def generate_document (prompt : Option String) (freshId : String) (t : ℕ)
    (st : Store) : EndpointResult :=
  if prompt.getD "" = "" then
    { httpError := true, response := none, store := st, startedRunner := false }
  else
    { httpError := false
      response := some { jobId := freshId, message := "Generation started",
                         docHtml := "<p>Processing...</p>",
                         statusUrl := "/api/status/" ++ freshId }
      store := st.put freshId (initialGenStatus freshId t)
      startedRunner := true }

/-- The `/api/refine` handler `refine_document` (src/server.py lines
147-188): `job_id = existing_job_id or fresh`, then an unconditional
record write and a background runner start — no validation of any field
and no check of any existing record.  `prompt` and `selectionHtml` are
read from the request but only forwarded to the runner thread. -/
def refine_document (existingJobId prompt selectionHtml fullDocHtml : Option String)
    (freshId : String) (t : ℕ) (st : Store) : EndpointResult :=
  let jobId := if existingJobId.getD "" = "" then freshId else existingJobId.getD ""
  { httpError := false
    response := some { jobId := jobId, message := "Refinement started",
                       docHtml := if fullDocHtml.getD "" = "" then "<p>Processing...</p>"
                                  else fullDocHtml.getD "",
                       statusUrl := "/api/status/" ++ jobId }
    store := st.put jobId (initialRefineStatus jobId t)
    startedRunner := true }

def TWO_HOURS_MS : ℕ := 2 * 60 * 60 * 1000

/-- The deletion condition of `cleanup_old_jobs` (src/server.py lines
535-538): `now - status.get("startTime", now) > TWO_HOURS`.  A record
missing `startTime` contributes `now - now = 0`, hence is never selected. -/
def sweepDeletes (now : ℕ) (s : JobStatus) : Bool :=
  decide ((now : ℤ) - ((s.startTime.getD now : ℕ) : ℤ) > (TWO_HOURS_MS : ℤ))

/-- One pass of the Retention Sweeper loop body (src/server.py lines
530-541): collect every record whose deletion condition holds and delete
them, keeping the rest untouched. -/
def cleanup_old_jobs (now : ℕ) (st : Store) : Store :=
  st.filter (fun p => ! sweepDeletes now p.2)

/-- A record as left by a completed generation run. -/
def completedExample : JobStatus :=
  genTerminalWrite "j" "p" (initialGenStatus "j" 0)

/-- A live, non-terminal mid-run record. -/
def liveRecordExample : JobStatus :=
  { initialGenStatus "j1" 0 with stage := "generating", progress := 50 }

/-- A record whose `startTime` key is missing. -/
def noStartTimeRecord : JobStatus :=
  { initialGenStatus "j" 0 with startTime := none }

lemma genUpdates_pos (i : Fin 4) : 0 < genUpdates i := by
  fin_cases i <;>
    norm_num [genUpdates, genStageInfo, gsAnalyzing, gsGenerating, gsFormatting,
      gsFinalizing, speedMultiplier, updateIntervalMs, Int.toNat_ofNat]

lemma nextStage_gt_floor (i : Fin 4) :
    (genStageInfo i).progress < nextStageProgress i := by
  fin_cases i <;>
    norm_num [nextStageProgress, genStageInfo, gsAnalyzing, gsGenerating,
      gsFormatting, gsFinalizing]

lemma nextStage_le_100 (i : Fin 4) : nextStageProgress i ≤ 100 := by
  fin_cases i <;>
    norm_num [nextStageProgress, genStageInfo, gsAnalyzing, gsGenerating,
      gsFormatting, gsFinalizing]

lemma genStage_not_failed (i : Fin 4) : (genStageInfo i).stage ≠ "failed" := by
  fin_cases i <;>
    simp [genStageInfo, gsAnalyzing, gsGenerating, gsFormatting, gsFinalizing]

lemma genStage_not_completed (i : Fin 4) : (genStageInfo i).stage ≠ "completed" := by
  fin_cases i <;>
    simp [genStageInfo, gsAnalyzing, gsGenerating, gsFormatting, gsFinalizing]

lemma tickShare_nonneg (i : Fin 4) (j : ℕ) : 0 ≤ tickShare i j := by
  have h := nextStage_gt_floor i
  have h1 : ((genStageInfo i).progress : ℚ) ≤ (nextStageProgress i : ℚ) := by
    exact_mod_cast h.le
  apply mul_nonneg
  · apply div_nonneg (by linarith) (by positivity)
  · positivity

lemma tickShare_mono (i : Fin 4) {j j' : ℕ} (h : j ≤ j') :
    tickShare i j ≤ tickShare i j' := by
  have h0 := nextStage_gt_floor i
  have h1 : (0:ℚ) ≤
      ((nextStageProgress i : ℚ) - ((genStageInfo i).progress : ℚ)) / (genUpdates i) := by
    apply div_nonneg _ (by positivity)
    have : ((genStageInfo i).progress : ℚ) ≤ (nextStageProgress i : ℚ) := by
      exact_mod_cast h0.le
    linarith
  unfold tickShare
  apply mul_le_mul_of_nonneg_left _ h1
  have : (j:ℚ) ≤ (j':ℚ) := by exact_mod_cast h
  linarith

lemma floor_le_tickProgress (i : Fin 4) (j : ℕ) :
    (genStageInfo i).progress ≤ tickProgress i j := by
  have h0 := nextStage_gt_floor i
  apply le_min (by omega)
  have h1 : ((genStageInfo i).progress : ℤ) ≤
      ⌊((genStageInfo i).progress : ℚ) + tickShare i j⌋ := by
    apply Int.le_floor.mpr
    push_cast
    linarith [tickShare_nonneg i j]
  calc (genStageInfo i).progress
      = ((genStageInfo i).progress : ℤ).toNat := by simp
    _ ≤ _ := Int.toNat_le_toNat h1

lemma tickProgress_mono (i : Fin 4) {j j' : ℕ} (h : j ≤ j') :
    tickProgress i j ≤ tickProgress i j' := by
  apply min_le_min le_rfl
  apply Int.toNat_le_toNat
  apply Int.floor_le_floor
  linarith [tickShare_mono i h]

lemma tickProgress_lt_next (i : Fin 4) (j : ℕ) :
    tickProgress i j < nextStageProgress i := by
  have h0 := nextStage_gt_floor i
  have := min_le_left (nextStageProgress i - 1)
    (Int.toNat ⌊((genStageInfo i).progress : ℚ) + tickShare i j⌋)
  unfold tickProgress
  omega

lemma tickProgress_lt_100 (i : Fin 4) (j : ℕ) : tickProgress i j < 100 := by
  have h1 := tickProgress_lt_next i j
  have h2 := nextStage_le_100 i
  omega

lemma floor_le_100 (i : Fin 4) : (genStageInfo i).progress ≤ 100 := by
  have h1 := nextStage_gt_floor i
  have h2 := nextStage_le_100 i
  omega

lemma nextStageProgress_succ (i : Fin 4) (h : i.val + 1 < 4) :
    nextStageProgress i = (genStageInfo ⟨i.val + 1, h⟩).progress := by
  simp [nextStageProgress, h]

lemma nextStageProgress_last (i : Fin 4) (h : ¬ i.val + 1 < 4) :
    nextStageProgress i = 100 := by
  simp [nextStageProgress, h]

lemma runnerShouldStop_some (s : JobStatus) :
    runnerShouldStop (some s) = (s.stage == "failed") := rfl

lemma Store.get_put_same (st : Store) (k : String) (v : JobStatus) :
    Store.get (Store.put st k v) k = some v := by
  induction st with
  | nil => simp [Store.put, Store.get]
  | cons p rest ih =>
      by_cases h : p.1 = k
      · simp [Store.put, Store.get, h]
      · simp [Store.put, Store.get, h, ih]

lemma remainingSeconds_nonneg (e : ℚ) : 0 ≤ remainingSeconds e :=
  le_max_left 0 _



lemma genInv_init (jobId : String) (t : ℕ) :
    GenInv (some (initialGenStatus jobId t), PC.stageEntry 0) := by
  refine ⟨initialGenStatus jobId t, rfl, rfl, by norm_num [initialGenStatus], ?_, ?_⟩
  · intro _
    simp [initialGenStatus, pcBound, genStageInfo, gsAnalyzing]
  · intro h
    simp [initialGenStatus] at h

lemma genInv_step {jobId prompt : String} {st st' : Option JobStatus × PC}
    (hinv : GenInv st) (hstep : GenStep jobId prompt st st') : GenInv st' := by
  obtain ⟨s, hs, hts, h100, hbound, hcpc⟩ := hinv
  cases hstep with
  | runner e o pc op hop =>
      simp only at hs
      subst hs
      by_cases hf : s.stage = "failed"
      · have hguard : runnerShouldStop (some s) = true := by
          simp [runnerShouldStop_some, hf]
        cases pc with
        | done => simp [pcOp] at hop
        | stageEntry i =>
            cases hop
            refine ⟨s, ?_, hts, h100, ?_, ?_⟩
            · simp [applyOp, hguard]
            · intro hne; exact absurd hf hne
            · intro hc; rw [hc] at hf; simp at hf
        | tick i j =>
            cases hop
            refine ⟨s, ?_, hts, h100, ?_, ?_⟩
            · simp [applyOp, hguard]
            · intro hne; exact absurd hf hne
            · intro hc; rw [hc] at hf; simp at hf
        | terminal =>
            cases hop
            refine ⟨s, ?_, hts, h100, ?_, ?_⟩
            · simp [applyOp, hguard]
            · intro hne; exact absurd hf hne
            · intro hc; rw [hc] at hf; simp at hf
      · have hguard : runnerShouldStop (some s) = false := by
          simp [runnerShouldStop_some, hf]
        have hnc : s.stage ≠ "completed" := by
          intro hc
          have := hcpc hc
          cases pc with
          | done => simp [pcOp] at hop
          | stageEntry i => simp at this
          | tick i j => simp at this
          | terminal => simp at this
        cases pc with
        | done => simp [pcOp] at hop
        | stageEntry i =>
            cases hop
            refine ⟨genStageWrite i e s, ?_, ?_, ?_, ?_, ?_⟩
            · simp [applyOp, hguard]
            · simp [genStageWrite, hts]
            · simp [genStageWrite]; exact floor_le_100 i
            · intro _
              simp only [genStageWrite, nextPC, genUpdates_pos i, if_true]
              simpa [pcBound] using floor_le_tickProgress i 0
            · intro hc
              exact absurd hc (by simpa [genStageWrite] using genStage_not_completed i)
        | tick i j =>
            cases hop
            refine ⟨genTickWrite i j e s, ?_, ?_, ?_, ?_, ?_⟩
            · simp [applyOp, hguard]
            · simp [genTickWrite, hts]
            · simp [genTickWrite]; exact (tickProgress_lt_100 i j).le
            · intro _
              simp only [genTickWrite, nextPC]
              by_cases hj : j + 1 < genUpdates i
              · simp only [hj, if_true, pcBound]
                exact tickProgress_mono i (Nat.le_succ j)
              · simp only [hj, if_false, afterStage]
                by_cases hi : i.val + 1 < 4
                · simp only [hi, dif_pos, pcBound]
                  have h1 := tickProgress_lt_next i j
                  rw [nextStageProgress_succ i hi] at h1
                  exact h1.le
                · simp only [hi, dif_neg, pcBound]
                  exact (tickProgress_lt_100 i j).le
            · intro hc
              simp [genTickWrite] at hc
              exact absurd hc hnc
        | terminal =>
            cases hop
            refine ⟨genTerminalWrite jobId prompt s, ?_, ?_, ?_, ?_, ?_⟩
            · simp [applyOp, hguard]
            · simp [genTerminalWrite, hts]
            · simp [genTerminalWrite]
            · intro _; simp [genTerminalWrite, nextPC, pcBound]
            · intro _; rfl
  | cancel o pc =>
      simp only at hs
      subst hs
      by_cases hterm : isTerminal s
      · refine ⟨s, ?_, hts, h100, hbound, hcpc⟩
        simp [applyOp, cancel_job, hterm]
      · refine ⟨cancelWrite s, ?_, ?_, ?_, ?_, ?_⟩
        · simp [applyOp, cancel_job, hterm]
        · simp [cancelWrite, hts]
        · simp [cancelWrite]; exact h100
        · intro hne
          exact absurd (by simp [cancelWrite]) hne
        · intro hc
          simp [cancelWrite] at hc

lemma genStep_progress_mono {jobId prompt : String} {st st' : Option JobStatus × PC}
    (hinv : GenInv st) (hstep : GenStep jobId prompt st st')
    {s s' : JobStatus} (ho : st.1 = some s) (ho' : st'.1 = some s') :
    s.progress ≤ s'.progress := by
  obtain ⟨u, hu, hts, h100, hbound, hcpc⟩ := hinv
  cases hstep with
  | runner e o pc op hop =>
      simp only at hu ho ho'
      subst ho
      obtain rfl : s = u := Option.some.inj hu
      by_cases hf : s.stage = "failed"
      · have hguard : runnerShouldStop (some s) = true := by
          simp [runnerShouldStop_some, hf]
        have hid : applyOp op (some s) = some s := by
          cases pc with
          | done => simp [pcOp] at hop
          | stageEntry i => cases hop; simp [applyOp, hguard]
          | tick i j => cases hop; simp [applyOp, hguard]
          | terminal => cases hop; simp [applyOp, hguard]
        rw [hid] at ho'
        obtain rfl : s = s' := Option.some.inj ho'
        exact le_rfl
      · have hguard : runnerShouldStop (some s) = false := by
          simp [runnerShouldStop_some, hf]
        cases pc with
        | done => simp [pcOp] at hop
        | stageEntry i =>
            cases hop
            have : applyOp (Op.genStage i e) (some s) = some (genStageWrite i e s) := by
              simp [applyOp, hguard]
            rw [this] at ho'
            obtain rfl : genStageWrite i e s = s' := Option.some.inj ho'
            simpa [genStageWrite] using hbound hf
        | tick i j =>
            cases hop
            have : applyOp (Op.genTick i j e) (some s) = some (genTickWrite i j e s) := by
              simp [applyOp, hguard]
            rw [this] at ho'
            obtain rfl : genTickWrite i j e s = s' := Option.some.inj ho'
            simpa [genTickWrite] using hbound hf
        | terminal =>
            cases hop
            have : applyOp (Op.genTerminal jobId prompt) (some s) =
                some (genTerminalWrite jobId prompt s) := by
              simp [applyOp, hguard]
            rw [this] at ho'
            obtain rfl : genTerminalWrite jobId prompt s = s' := Option.some.inj ho'
            simpa [genTerminalWrite] using h100
  | cancel o pc =>
      simp only at ho ho'
      subst ho
      by_cases hterm : isTerminal s
      · have : applyOp Op.cancelOp (some s) = some s := by
          simp [applyOp, cancel_job, hterm]
        rw [this] at ho'
        obtain rfl : s = s' := Option.some.inj ho'
        exact le_rfl
      · have : applyOp Op.cancelOp (some s) = some (cancelWrite s) := by
          simp [applyOp, cancel_job, hterm]
        rw [this] at ho'
        obtain rfl : cancelWrite s = s' := Option.some.inj ho'
        simp [cancelWrite]

lemma genStep_terminal_frozen {jobId prompt : String} {st st' : Option JobStatus × PC}
    (hinv : GenInv st) (hstep : GenStep jobId prompt st st')
    {s : JobStatus} (ho : st.1 = some s) (hterm : isTerminal s = true) :
    st'.1 = some s := by
  obtain ⟨u, hu, hts, h100, hbound, hcpc⟩ := hinv
  have hdisj : s.stage = "completed" ∨ s.stage = "failed" := by
    simpa [isTerminal] using hterm
  cases hstep with
  | runner e o pc op hop =>
      simp only at hu ho ⊢
      subst ho
      obtain rfl : s = u := Option.some.inj hu
      rcases hdisj with hc | hf
      · have hdone := hcpc hc
        simp only at hdone
        subst hdone
        simp [pcOp] at hop
      · have hguard : runnerShouldStop (some s) = true := by
          simp [runnerShouldStop_some, hf]
        cases pc with
        | done => simp [pcOp] at hop
        | stageEntry i => cases hop; simp [applyOp, hguard]
        | tick i j => cases hop; simp [applyOp, hguard]
        | terminal => cases hop; simp [applyOp, hguard]
  | cancel o pc =>
      simp only at ho ⊢
      subst ho
      simp [applyOp, cancel_job, hterm]

lemma genInv_reach {jobId prompt : String} {st st' : Option JobStatus × PC}
    (hinv : GenInv st) (h : GenReach jobId prompt st st') : GenInv st' := by
  induction h with
  | refl => exact hinv
  | tail hab hbc ih => exact genInv_step ih hbc

lemma genReach_progress_mono {jobId prompt : String} {st st' : Option JobStatus × PC}
    (hinv : GenInv st) (h : GenReach jobId prompt st st') :
    ∀ s s', st.1 = some s → st'.1 = some s' → s.progress ≤ s'.progress := by
  induction h with
  | refl =>
      intro s s' h1 h2
      rw [h1] at h2
      obtain rfl : s = s' := Option.some.inj h2
      exact le_rfl
  | tail hab hbc ih =>
      intro s s' h1 h2
      obtain ⟨sb, hb, -, -, -, -⟩ := genInv_reach hinv hab
      exact le_trans (ih s sb h1 hb)
        (genStep_progress_mono (genInv_reach hinv hab) hbc hb h2)

lemma genReach_terminal_frozen {jobId prompt : String} {st st' : Option JobStatus × PC}
    (hinv : GenInv st) (h : GenReach jobId prompt st st')
    {s : JobStatus} (ho : st.1 = some s) (hterm : isTerminal s = true) :
    st'.1 = some s := by
  induction h with
  | refl => exact ho
  | tail hab hbc ih =>
      exact genStep_terminal_frozen (genInv_reach hinv hab) hbc ih hterm



lemma tickProgress_eq (i : Fin 4) (j : ℕ) :
    tickProgress i j =
      min (nextStageProgress i - 1)
        ((genStageInfo i).progress + Int.toNat ⌊tickShare i j⌋) := by
  unfold tickProgress
  congr 1
  have hcast : ((genStageInfo i).progress : ℚ) = (((genStageInfo i).progress : ℤ) : ℚ) := by
    push_cast; ring
  rw [hcast, Int.floor_int_add]
  have hb : 0 ≤ ⌊tickShare i j⌋ := Int.floor_nonneg.mpr (tickShare_nonneg i j)
  omega

lemma generate_mock_document_ne_empty (p : String) : generate_mock_document p ≠ "" := by
  intro h
  have hlen := congrArg String.length h
  rw [generate_mock_document, String.length_append, String.length_append] at hlen
  have h1 : (0:ℕ) <
      ("\n    <h1>Generated Document</h1>\n    <p><strong>Based on prompt:</strong> " : String).length := by
    decide
  have h2 : ("" : String).length = 0 := rfl
  rw [h2] at hlen
  omega

/-- A refinement record as it stands after the last refinement stage write. -/
def refRunFinalExample : JobStatus :=
  refStageWrite 2 10 (refStageWrite 1 5 (refStageWrite 0 0 (initialRefineStatus "j" 0)))

/-- C3: the cancel operation fails with NotFound when no record exists
(writing nothing); when the record is already terminal it returns success
and leaves the record entirely unchanged; otherwise it performs exactly one
merge write setting stage to failed, the cancellation message and
estimatedTimeRemaining to 0, leaving progress and every other field at
their pre-cancel values. -/
theorem cancel_contract :
    cancel_job none = (CancelOutcome.notFound, none) ∧
    (∀ s : JobStatus, isTerminal s = true →
      cancel_job (some s) = (CancelOutcome.alreadyDone, some s)) ∧
    (∀ s : JobStatus, isTerminal s = false →
      cancel_job (some s) =
        (CancelOutcome.cancelled,
         some { s with stage := "failed", message := "Job cancelled by user",
                       estimatedTimeRemaining := 0 })) := by
  refine ⟨rfl, ?_, ?_⟩
  · intro s h
    simp [cancel_job, h]
  · intro s h
    simp [cancel_job, h, cancelWrite]

/-- Witness for C3: cancelling an already-completed record returns success
and leaves it unchanged. -/
theorem cancel_contract_witness :
    cancel_job (some completedExample) = (CancelOutcome.alreadyDone, some completedExample) :=
  cancel_contract.2.1 completedExample rfl

/-- C6: a generation request with an absent or empty prompt is rejected
with an HTTP 400, allocates no job id, writes nothing to the store and
starts no background runner; a non-empty prompt yields the fresh job id and
its status URL, with the initial record written. -/
theorem generate_validates_prompt (freshId : String) (t : ℕ) (st : Store) :
    generate_document none freshId t st =
      { httpError := true, response := none, store := st, startedRunner := false } ∧
    generate_document (some "") freshId t st =
      { httpError := true, response := none, store := st, startedRunner := false } ∧
    (∀ p : String, p ≠ "" →
      generate_document (some p) freshId t st =
        { httpError := false
          response := some { jobId := freshId, message := "Generation started",
                             docHtml := "<p>Processing...</p>",
                             statusUrl := "/api/status/" ++ freshId }
          store := st.put freshId (initialGenStatus freshId t)
          startedRunner := true }) := by
  refine ⟨rfl, rfl, ?_⟩
  intro p hp
  simp [generate_document, hp]

/-- Witness for C6 at a concrete non-empty prompt. -/
theorem generate_validates_prompt_witness :
    generate_document (some "Climate report") "job1" 0 [] =
      { httpError := false
        response := some { jobId := "job1", message := "Generation started",
                           docHtml := "<p>Processing...</p>",
                           statusUrl := "/api/status/" ++ "job1" }
        store := Store.put [] "job1" (initialGenStatus "job1" 0)
        startedRunner := true } :=
  (generate_validates_prompt "job1" 0 []).2.2 "Climate report" (by decide)

/-- C10: the refinement endpoint performs no input validation: for every
request — including one with an absent or empty prompt — it succeeds,
writes a record with stage analyzing and progress 5 under the reused or
fresh id, and starts a background runner; there is no InvalidInput branch. -/
theorem refine_never_validates (existingJobId prompt selectionHtml fullDocHtml : Option String)
    (freshId : String) (t : ℕ) (st : Store) :
    (refine_document existingJobId prompt selectionHtml fullDocHtml freshId t st).httpError
      = false ∧
    (refine_document existingJobId prompt selectionHtml fullDocHtml freshId t st).startedRunner
      = true ∧
    Store.get
      (refine_document existingJobId prompt selectionHtml fullDocHtml freshId t st).store
      (if existingJobId.getD "" = "" then freshId else existingJobId.getD "")
      = some (initialRefineStatus
          (if existingJobId.getD "" = "" then freshId else existingJobId.getD "") t) ∧
    (initialRefineStatus
        (if existingJobId.getD "" = "" then freshId else existingJobId.getD "") t).stage
      = "analyzing" ∧
    (initialRefineStatus
        (if existingJobId.getD "" = "" then freshId else existingJobId.getD "") t).progress
      = 5 := by
  refine ⟨rfl, rfl, ?_, rfl, rfl⟩
  exact Store.get_put_same st _ _

/-- C8: on every tick the written progress is the minimum of the next
stage floor minus one and the stage floor plus the interpolation share, so
it never reaches the next floor; the final stage interpolates toward 100
and so caps at 99, tick and stage writes never write 100; and the written
estimatedTimeRemaining is max(0, totalPlannedDuration - elapsed), never
negative. -/
theorem tick_write_contract (i : Fin 4) (j : ℕ) (e : ℚ) (s : JobStatus) :
    (genTickWrite i j e s).progress = tickProgress i j ∧
    tickProgress i j =
      min (nextStageProgress i - 1)
          ((genStageInfo i).progress + Int.toNat ⌊tickShare i j⌋) ∧
    tickProgress i j < nextStageProgress i ∧
    nextStageProgress 3 = 100 ∧
    (∀ j' : ℕ, tickProgress 3 j' ≤ 99) ∧
    tickProgress i j < 100 ∧
    (genTickWrite i j e s).estimatedTimeRemaining = remainingSeconds e ∧
    remainingSeconds e = max 0 ⌊(totalDurationMs - e) / 1000⌋ ∧
    0 ≤ remainingSeconds e := by
  refine ⟨rfl, tickProgress_eq i j, tickProgress_lt_next i j, rfl, ?_,
    tickProgress_lt_100 i j, rfl, rfl, remainingSeconds_nonneg e⟩
  intro j'
  have h := tickProgress_lt_next 3 j'
  have h100 : nextStageProgress 3 = 100 := rfl
  omega

/-- C1 (amended): along any single generation run with arbitrarily
interleaved cancellations, once a snapshot is terminal every later snapshot
is the identical record; the pre-write check of the Stage Runner, however, stops
only on a missing record or stage failed — not on completed. -/
theorem terminal_snapshot_immutable (jobId prompt : String) (t : ℕ)
    (st₁ st₂ : Option JobStatus × PC)
    (h₁ : GenReach jobId prompt (some (initialGenStatus jobId t), PC.stageEntry 0) st₁)
    (h₂ : GenReach jobId prompt st₁ st₂)
    (s₁ : JobStatus) (ho₁ : st₁.1 = some s₁) (hterm : isTerminal s₁ = true) :
    st₂.1 = some s₁ ∧
    (∀ s : JobStatus, runnerShouldStop (some s) = (s.stage == "failed")) :=
  ⟨genReach_terminal_frozen (genInv_reach (genInv_init jobId t) h₁) h₂ ho₁ hterm,
   fun _ => rfl⟩

/-- Witness for C1 (amended): after cancelling the fresh job, its failed
record never changes again. -/
theorem terminal_snapshot_immutable_witness :
    ((applyOp Op.cancelOp (some (initialGenStatus "j" 0)), PC.stageEntry 0) :
        Option JobStatus × PC).1
      = some (cancelWrite (initialGenStatus "j" 0)) ∧
    (∀ s : JobStatus, runnerShouldStop (some s) = (s.stage == "failed")) :=
  terminal_snapshot_immutable "j" "p" 0
    (applyOp Op.cancelOp (some (initialGenStatus "j" 0)), PC.stageEntry 0)
    (applyOp Op.cancelOp (some (initialGenStatus "j" 0)), PC.stageEntry 0)
    (Relation.ReflTransGen.single (GenStep.cancel _ _))
    Relation.ReflTransGen.refl
    (cancelWrite (initialGenStatus "j" 0))
    (by decide)
    (by decide)

/-- C1 counterexample: the runner guard does not stop on a completed
record, and a tick write applied to one mutates its progress. -/
theorem runner_guard_ignores_completed :
    isTerminal completedExample = true ∧
    runnerShouldStop (some completedExample) = false ∧
    (applyOp (Op.genTick 0 0 0) (some completedExample)).map JobStatus.progress
      = some (tickProgress 0 0) ∧
    tickProgress 0 0 < completedExample.progress := by
  refine ⟨rfl, rfl, ?_, ?_⟩
  · have hg : runnerShouldStop (some completedExample) = false := rfl
    simp [applyOp, hg, genTickWrite]
  · have h1 := tickProgress_lt_next 0 0
    have h2 : nextStageProgress 0 = 40 := rfl
    have h3 : completedExample.progress = 100 := rfl
    omega

/-- C2 (amended): over any single run of the Stage Runner with
arbitrarily interleaved cancellations, progress never decreases between
any two successive snapshots. -/
theorem progress_monotone_in_run (jobId prompt : String) (t : ℕ)
    (st₁ st₂ : Option JobStatus × PC)
    (h₁ : GenReach jobId prompt (some (initialGenStatus jobId t), PC.stageEntry 0) st₁)
    (h₂ : GenReach jobId prompt st₁ st₂)
    (s₁ s₂ : JobStatus) (ho₁ : st₁.1 = some s₁) (ho₂ : st₂.1 = some s₂) :
    s₁.progress ≤ s₂.progress :=
  genReach_progress_mono (genInv_reach (genInv_init jobId t) h₁) h₂ s₁ s₂ ho₁ ho₂

/-- Witness for C2 (amended): progress does not decrease across a
cancellation of the fresh job. -/
theorem progress_monotone_in_run_witness :
    (initialGenStatus "j" 0).progress ≤ (cancelWrite (initialGenStatus "j" 0)).progress :=
  progress_monotone_in_run "j" "p" 0
    (some (initialGenStatus "j" 0), PC.stageEntry 0)
    (applyOp Op.cancelOp (some (initialGenStatus "j" 0)), PC.stageEntry 0)
    Relation.ReflTransGen.refl
    (Relation.ReflTransGen.single (GenStep.cancel _ _))
    (initialGenStatus "j" 0) (cancelWrite (initialGenStatus "j" 0))
    rfl (by decide)

/-- C2 counterexample: refinement re-initialization of a completed job id
writes progress 5 over progress 100 — a regression, so monotonicity over a
write sequence that includes re-initialization fails. -/
theorem refine_reinit_regresses_progress :
    applyOp (Op.refineInitOp "j" 5) (some completedExample)
      = some (initialRefineStatus "j" 5) ∧
    completedExample.progress = 100 ∧
    (initialRefineStatus "j" 5).progress = 5 ∧
    ¬ (completedExample.progress ≤ (initialRefineStatus "j" 5).progress) := by
  refine ⟨rfl, rfl, rfl, ?_⟩
  intro h
  rw [show completedExample.progress = 100 from rfl,
      show (initialRefineStatus "j" 5).progress = 5 from rfl] at h
  omega

/-- C4 (amended, generation part): for a generation job the terminal write
sets stage completed, progress 100, completedSteps equal to the totalSteps
of the record, estimatedTimeRemaining 0, appends exactly one final detail
line, and attaches a non-empty produced document. -/
theorem gen_terminal_write_contract (jobId prompt : String) (t : ℕ)
    (st : Option JobStatus × PC)
    (h : GenReach jobId prompt (some (initialGenStatus jobId t), PC.stageEntry 0) st)
    (s : JobStatus) (ho : st.1 = some s) :
    (genTerminalWrite jobId prompt s).stage = "completed" ∧
    (genTerminalWrite jobId prompt s).progress = 100 ∧
    (genTerminalWrite jobId prompt s).completedSteps = s.totalSteps ∧
    (genTerminalWrite jobId prompt s).estimatedTimeRemaining = 0 ∧
    (genTerminalWrite jobId prompt s).details = s.details ++ ["Generation complete"] ∧
    (genTerminalWrite jobId prompt s).docHtml = some (generate_mock_document prompt) ∧
    generate_mock_document prompt ≠ "" := by
  obtain ⟨u, hu, hts, -, -, -⟩ := genInv_reach (genInv_init jobId t) h
  rw [ho] at hu
  obtain rfl : s = u := Option.some.inj hu
  exact ⟨rfl, rfl, by simp [genTerminalWrite, hts], rfl, rfl, rfl,
    generate_mock_document_ne_empty prompt⟩

/-- Witness for C4 (amended) at the initial record of a fresh job. -/
theorem gen_terminal_write_contract_witness :
    (genTerminalWrite "j" "p" (initialGenStatus "j" 0)).stage = "completed" ∧
    (genTerminalWrite "j" "p" (initialGenStatus "j" 0)).progress = 100 ∧
    (genTerminalWrite "j" "p" (initialGenStatus "j" 0)).completedSteps
      = (initialGenStatus "j" 0).totalSteps ∧
    (genTerminalWrite "j" "p" (initialGenStatus "j" 0)).estimatedTimeRemaining = 0 ∧
    (genTerminalWrite "j" "p" (initialGenStatus "j" 0)).details
      = (initialGenStatus "j" 0).details ++ ["Generation complete"] ∧
    (genTerminalWrite "j" "p" (initialGenStatus "j" 0)).docHtml
      = some (generate_mock_document "p") ∧
    generate_mock_document "p" ≠ "" :=
  gen_terminal_write_contract "j" "p" 0
    (some (initialGenStatus "j" 0), PC.stageEntry 0)
    Relation.ReflTransGen.refl (initialGenStatus "j" 0) rfl

/-- C4 counterexample: the refinement terminal write leaves completedSteps
at 0 (not totalSteps = 4) and appends no detail line. -/
theorem ref_terminal_write_gap :
    (refTerminalWrite none refRunFinalExample).completedSteps = 0 ∧
    (refTerminalWrite none refRunFinalExample).totalSteps = 4 ∧
    ¬ ((refTerminalWrite none refRunFinalExample).completedSteps
        = (refTerminalWrite none refRunFinalExample).totalSteps) ∧
    (refTerminalWrite none refRunFinalExample).details = refRunFinalExample.details := by
  refine ⟨rfl, rfl, ?_, rfl⟩
  intro h
  rw [show (refTerminalWrite none refRunFinalExample).completedSteps = 0 from rfl,
      show (refTerminalWrite none refRunFinalExample).totalSteps = 4 from rfl] at h
  omega

/-- C5 (amended): every record operation except refinement
re-initialization only ever appends to details — stage-entry and terminal
writes append their lines, tick writes, cancellation and the refinement
runner writes leave details untouched. -/
theorem details_append_only (op : Op) (hop : ∀ jid t, op ≠ Op.refineInitOp jid t)
    (s : JobStatus) :
    ∃ s' tl, applyOp op (some s) = some s' ∧ s'.details = s.details ++ tl := by
  cases op with
  | genStage i e =>
      cases hrs : runnerShouldStop (some s) with
      | true => exact ⟨s, [], by simp [applyOp, hrs], by simp⟩
      | false => exact ⟨genStageWrite i e s, (genStageInfo i).details,
          by simp [applyOp, hrs], by simp [genStageWrite]⟩
  | genTick i j e =>
      cases hrs : runnerShouldStop (some s) with
      | true => exact ⟨s, [], by simp [applyOp, hrs], by simp⟩
      | false => exact ⟨genTickWrite i j e s, [],
          by simp [applyOp, hrs], by simp [genTickWrite]⟩
  | genTerminal jid p =>
      cases hrs : runnerShouldStop (some s) with
      | true => exact ⟨s, [], by simp [applyOp, hrs], by simp⟩
      | false => exact ⟨genTerminalWrite jid p s, ["Generation complete"],
          by simp [applyOp, hrs], by simp [genTerminalWrite]⟩
  | refStage k e =>
      cases hrs : runnerShouldStop (some s) with
      | true => exact ⟨s, [], by simp [applyOp, hrs], by simp⟩
      | false => exact ⟨refStageWrite k e s, [],
          by simp [applyOp, hrs], by simp [refStageWrite]⟩
  | refTerminal d =>
      cases hrs : runnerShouldStop (some s) with
      | true => exact ⟨s, [], by simp [applyOp, hrs], by simp⟩
      | false => exact ⟨refTerminalWrite d s, [],
          by simp [applyOp, hrs], by simp [refTerminalWrite]⟩
  | cancelOp =>
      by_cases ht : isTerminal s
      · exact ⟨s, [], by simp [applyOp, cancel_job, ht], by simp⟩
      · exact ⟨cancelWrite s, [], by simp [applyOp, cancel_job, ht], by simp [cancelWrite]⟩
  | refineInitOp jid t => exact absurd rfl (hop jid t)

/-- Witness for C5 (amended): cancellation leaves the details list of the
fresh record an extension of itself. -/
theorem details_append_only_witness :
    ∃ s' tl, applyOp Op.cancelOp (some (initialGenStatus "j" 0)) = some s' ∧
      s'.details = (initialGenStatus "j" 0).details ++ tl :=
  details_append_only Op.cancelOp (fun _ _ h => Op.noConfusion h) (initialGenStatus "j" 0)

/-- C5 counterexample: refinement re-initialization replaces the details
list wholesale — the old list is not a prefix of the new one. -/
theorem refine_reinit_replaces_details :
    applyOp (Op.refineInitOp "j" 5) (some (initialGenStatus "j" 0))
      = some (initialRefineStatus "j" 5) ∧
    ¬ ∃ tl, (initialRefineStatus "j" 5).details
        = (initialGenStatus "j" 0).details ++ tl := by
  refine ⟨rfl, ?_⟩
  rintro ⟨tl, htl⟩
  have h2 : (["Refinement started", "Analyzing existing content"] : List String)
      = "Job created" :: ("Validating prompt" :: tl) := htl
  injection h2 with h3 h4
  exact absurd h3 (by decide)

/-- C7 (amended): both create operations write the initial record
synchronously, so an immediate status lookup succeeds; a refinement with a
supplied (non-empty) job id reuses that id and preserves it in the record;
a generation always answers with the freshly allocated id. -/
theorem creation_write_synchronous (p freshId jid : String) (hp : p ≠ "") (hj : jid ≠ "")
    (pr sel full : Option String) (t : ℕ) (st : Store) :
    Store.get (generate_document (some p) freshId t st).store freshId
      = some (initialGenStatus freshId t) ∧
    (initialGenStatus freshId t).jobId = freshId ∧
    (generate_document (some p) freshId t st).response.map ApiResponse.jobId
      = some freshId ∧
    Store.get (refine_document (some jid) pr sel full freshId t st).store jid
      = some (initialRefineStatus jid t) ∧
    (initialRefineStatus jid t).jobId = jid ∧
    (refine_document (some jid) pr sel full freshId t st).response.map ApiResponse.jobId
      = some jid := by
  refine ⟨?_, rfl, ?_, ?_, rfl, ?_⟩
  · simp only [generate_document, hp, if_neg, Option.getD_some]
    exact Store.get_put_same st _ _
  · simp [generate_document, hp]
  · simp only [refine_document, Option.getD_some, hj, if_neg]
    exact Store.get_put_same st _ _
  · simp [refine_document, hj]

/-- Witness for C7 (amended) at concrete inputs. -/
theorem creation_write_synchronous_witness :
    Store.get (generate_document (some "Climate report") "g1" 3 []).store "g1"
      = some (initialGenStatus "g1" 3) ∧
    (initialGenStatus "g1" 3).jobId = "g1" ∧
    (generate_document (some "Climate report") "g1" 3 []).response.map ApiResponse.jobId
      = some "g1" ∧
    Store.get (refine_document (some "r1") none none none "g1" 3 []).store "r1"
      = some (initialRefineStatus "r1" 3) ∧
    (initialRefineStatus "r1" 3).jobId = "r1" ∧
    (refine_document (some "r1") none none none "g1" 3 []).response.map ApiResponse.jobId
      = some "r1" :=
  creation_write_synchronous "Climate report" "g1" "r1" (by decide) (by decide)
    none none none 3 []

/-- C7 counterexample: a refinement that supplies the id of a live,
non-terminal record silently overwrites it. -/
theorem refine_overwrites_live_record :
    isTerminal liveRecordExample = false ∧
    Store.get [("j1", liveRecordExample)] "j1" = some liveRecordExample ∧
    Store.get (refine_document (some "j1") none none none "f" 7
        [("j1", liveRecordExample)]).store "j1"
      = some (initialRefineStatus "j1" 7) ∧
    initialRefineStatus "j1" 7 ≠ liveRecordExample := by
  refine ⟨rfl, rfl, by decide, by decide⟩

/-- C9 (amended): a sweep pass deletes exactly the records whose startTime
is strictly older than the two-hour window at sweep time — independent of
stage — and keeps every other record unchanged; a record with a missing
startTime is treated as just-created (the sweep time is substituted) and is
therefore always kept, never deleted. -/
theorem cleanup_retention (now : ℕ) (st : Store) (jid : String) (s : JobStatus) :
    ((jid, s) ∈ cleanup_old_jobs now st ↔
      ((jid, s) ∈ st ∧
        ¬ ((now : ℤ) - ((s.startTime.getD now : ℕ) : ℤ) > (TWO_HOURS_MS : ℤ)))) ∧
    (s.startTime = none →
      ((jid, s) ∈ cleanup_old_jobs now st ↔ (jid, s) ∈ st)) := by
  have hmain : (jid, s) ∈ cleanup_old_jobs now st ↔
      ((jid, s) ∈ st ∧
        ¬ ((now : ℤ) - ((s.startTime.getD now : ℕ) : ℤ) > (TWO_HOURS_MS : ℤ))) := by
    simp [cleanup_old_jobs, List.mem_filter, sweepDeletes]
  refine ⟨hmain, ?_⟩
  intro hnone
  rw [hmain]
  have hkeep : ¬ ((now : ℤ) - ((s.startTime.getD now : ℕ) : ℤ) > (TWO_HOURS_MS : ℤ)) := by
    rw [hnone]
    simp [TWO_HOURS_MS]
  simp [hkeep]

/-- Witness for C9 (amended): a record without startTime survives a sweep
far in the future. -/
theorem cleanup_retention_witness :
    (("j", noStartTimeRecord) ∈ cleanup_old_jobs 999999999999 [("j", noStartTimeRecord)] ↔
      ("j", noStartTimeRecord) ∈ [("j", noStartTimeRecord)]) :=
  (cleanup_retention 999999999999 [("j", noStartTimeRecord)] "j" noStartTimeRecord).2 rfl

/-- C9 counterexample: a record with a missing startTime is never a
deletion candidate — the sweep keeps it no matter how late it runs. -/
theorem missing_start_time_kept :
    sweepDeletes 999999999999 noStartTimeRecord = false ∧
    cleanup_old_jobs 999999999999 [("j", noStartTimeRecord)]
      = [("j", noStartTimeRecord)] := by
  exact ⟨by decide, by decide⟩

end DocGen
